import Mathlib

/-!
Load-aware batcher: shallow embedding and verification.

This file embeds the core of the load-aware batcher (`batcher.go`) in Lean 4
and proves the specification's claims about it.

Modelling conventions:
* Go `float64` values are modelled as exact rationals (`ℚ`).  Every quantity
  the claims mention (weights 0.6/0.15/0.15/0.1, thresholds 0.25/0.55, the
  adjustment factor) is exactly representable and all claims here are robust
  to rounding, so the rational model captures the intended real-number
  semantics of the Go code.
* Go `int` and `time.Duration` (int64 nanoseconds) are modelled as `ℤ`.
* The batch items are opaque payloads; they are modelled as `ℕ`.
* The mutex-protected critical sections of `Add`, `Flush`, `Close` and
  `adjustBatchSize` are each modelled as one atomic step on the batcher
  state; an interleaving of concurrent callers is a list of such events.
  The user handler is arbitrary stateful code, so its per-call result
  (feedback record and error) is supplied as event data rather than as a
  pure function.
* `detachBatchLocked` installs a fresh buffer whose *capacity* is the current
  batch size; capacity is a memory-layout detail with no observable effect
  on the claims and is not modelled.
-/

/-- Opaque item payload (`any` in Go); only identity matters for the claims. -/
abbrev Item : Type := ℕ

/-- `LoadFeedback` from `batcher.go`: backend load metrics returned by the
handler.  The Go struct's `Custom map[string]interface{}` field is purely
informational and read by no code path in the repository, so it is omitted. -/
structure LoadFeedback where
  cpuLoad : ℚ
  queueDepth : ℤ
  processingTime : ℤ
  errorRate : ℚ
  dbLocks : ℤ
  deriving DecidableEq, Repr

namespace LoadFeedback

/-- `LoadScore` from `batcher.go` lines 33–54: weighted combination of the
metrics, capped at 1. -/
def loadScore (lf : LoadFeedback) : ℚ :=
  let score : ℚ := 0
  let score := score + lf.cpuLoad * 0.6
  let queueScore := min ((lf.queueDepth : ℚ) / 100) 1
  let score := score + queueScore * 0.15
  let score := score + lf.errorRate * 0.15
  let lockScore := min ((lf.dbLocks : ℚ) / 50) 1
  let score := score + lockScore * 0.1
  min score 1

end LoadFeedback

/-- `HandlerFunc` from `batcher.go`: consumes a batch, returns an optional
feedback record and an error (modelled as a `Bool`: `true` = non-nil error).
The `context.Context` argument is not modelled. -/
def HandlerFunc : Type := List Item → Option LoadFeedback × Bool

/-- `Config` from `batcher.go`.  `handlerFunc = none` models a nil handler. -/
structure Config where
  initialBatchSize : ℤ
  minBatchSize : ℤ
  maxBatchSize : ℤ
  timeout : ℤ
  handlerFunc : Option HandlerFunc
  adjustmentFactor : ℚ
  loadCheckInterval : ℤ

/-- The two sentinel errors of the package. -/
inductive BatchError where
  | errClosed
  | errInvalidConfig
  deriving DecidableEq, Repr

/-- Nanoseconds in one second (`time.Second`). -/
def nanosPerSecond : ℤ := 1000000000

/-- Mutable state of a `Batcher` (`batcher.go` lines 98–112).  The `timer`
handle is modelled by whether a timer is armed; the ticker, stop channel and
wait group drive the background goroutine, which appears in the trace
semantics as explicit `adjust` events, so they carry no state here. -/
structure BState where
  batch : List Item
  cfg : Config
  timer : Bool
  closed : Bool
  currentBatchSize : ℤ
  recentFeedback : List LoadFeedback
  maxFeedbackLen : ℕ

/-- `batcher.go` lines 120–122: default the minimum size to 1 when unset. -/
def defaultMin (cfg : Config) : Config :=
  if cfg.minBatchSize ≤ 0 then { cfg with minBatchSize := 1 } else cfg

/-- `batcher.go` lines 123–125: default the maximum size to 1000 when unset. -/
def defaultMax (cfg : Config) : Config :=
  if cfg.maxBatchSize ≤ 0 then { cfg with maxBatchSize := 1000 } else cfg

/-- `batcher.go` lines 129–131: raise the initial size to the minimum. -/
def clampInitLow (cfg : Config) : Config :=
  if cfg.initialBatchSize < cfg.minBatchSize then
    { cfg with initialBatchSize := cfg.minBatchSize } else cfg

/-- `batcher.go` lines 132–134: lower the initial size to the maximum. -/
def clampInitHigh (cfg : Config) : Config :=
  if cfg.maxBatchSize < cfg.initialBatchSize then
    { cfg with initialBatchSize := cfg.maxBatchSize } else cfg

/-- `batcher.go` lines 138–140: default the adjustment factor to 0.2. -/
def defaultFactor (cfg : Config) : Config :=
  if cfg.adjustmentFactor ≤ 0 then { cfg with adjustmentFactor := 0.2 } else cfg

/-- `batcher.go` lines 141–143: default the check interval to 5 seconds. -/
def defaultInterval (cfg : Config) : Config :=
  if cfg.loadCheckInterval ≤ 0 then
    { cfg with loadCheckInterval := 5 * nanosPerSecond } else cfg

/-- `New` from `batcher.go` lines 115–160: validate the configuration, apply
defaults, clamp the initial size, and build the initial state, with the
checks and mutations in the source's order. -/
def New (cfg : Config) : Except BatchError BState :=
  if cfg.initialBatchSize ≤ 0 then .error .errInvalidConfig else
  let cfg := defaultMax (defaultMin cfg)
  if cfg.maxBatchSize < cfg.minBatchSize then .error .errInvalidConfig else
  let cfg := clampInitHigh (clampInitLow cfg)
  if cfg.handlerFunc.isNone then .error .errInvalidConfig else
  let cfg := defaultInterval (defaultFactor cfg)
  .ok { batch := []
        cfg := cfg
        timer := false
        closed := false
        currentBatchSize := cfg.initialBatchSize
        recentFeedback := []
        maxFeedbackLen := 10 }

/-- `recordFeedback` from `batcher.go` lines 276–281: append, then drop the
eldest entry if over capacity. -/
def recordFeedback (fbs : List LoadFeedback) (maxLen : ℕ) (f : LoadFeedback) :
    List LoadFeedback :=
  let fbs := fbs ++ [f]
  if maxLen < fbs.length then fbs.drop 1 else fbs

/-- The feedback-recording half of `processBatch` (`batcher.go` lines
263–274): store the handler's feedback when it is non-nil. -/
def recordOpt (st : BState) (fb : Option LoadFeedback) : BState :=
  match fb with
  | none => st
  | some f => { st with recentFeedback := recordFeedback st.recentFeedback st.maxFeedbackLen f }

/-- `detachBatchLocked` from `batcher.go` lines 339–346: steal the pending
slice and install a fresh empty buffer. -/
def detachBatchLocked (st : BState) : BState × List Item :=
  if st.batch.length = 0 then (st, [])
  else ({ st with batch := [] }, st.batch)

/-- `stopTimerLocked` from `batcher.go` lines 348–353. -/
def stopTimerLocked (st : BState) : BState := { st with timer := false }

/-- `startTimerLocked` from `batcher.go` lines 355–360. -/
def startTimerLocked (st : BState) : BState := { st with timer := true }

/-- Result of one `Add` call. -/
inductive AddOutcome where
  | errClosed
  | flushed (batch : List Item) (err : Bool)
  | added
  deriving DecidableEq, Repr

/-- `Add` from `batcher.go` lines 163–190, as one atomic step.  `fb` and
`herr` are the feedback record and error the handler returns if this call
triggers a size-based flush; `AddOutcome.flushed detached herr` records that
the handler was invoked with `detached`. -/
def addStep (st : BState) (item : Item) (fb : Option LoadFeedback) (herr : Bool) :
    BState × AddOutcome :=
  if st.closed then (st, .errClosed)
  else
    let wasEmpty := st.batch.length = 0
    let st := { st with batch := st.batch ++ [item] }
    if st.currentBatchSize ≤ (st.batch.length : ℤ) then
      let (st, detached) := detachBatchLocked st
      let st := stopTimerLocked st
      (recordOpt st fb, .flushed detached herr)
    else
      if wasEmpty ∧ 0 < st.cfg.timeout ∧ st.timer = false then
        (startTimerLocked st, .added)
      else (st, .added)

/-- `Flush` from `batcher.go` lines 193–205, as one atomic step.  The middle
component is the batch handed to the handler (`none` when the handler was not
invoked); the last component is the returned error. -/
def flushStep (st : BState) (fb : Option LoadFeedback) (herr : Bool) :
    BState × Option (List Item) × Bool :=
  if st.batch.length = 0 then (st, none, false)
  else
    let (st, detached) := detachBatchLocked st
    let st := stopTimerLocked st
    (recordOpt st fb, some detached, herr)

/-- `Close` from `batcher.go` lines 208–223: on the first call mark closed,
stop the controller, and perform a final flush; later calls return nil
immediately. -/
def closeStep (st : BState) (fb : Option LoadFeedback) (herr : Bool) :
    BState × Option (List Item) × Bool :=
  if st.closed then (st, none, false)
  else flushStep { st with closed := true } fb herr

/-- Average load score over the feedback ring (`batcher.go` lines 304–309). -/
def ringAverage (fbs : List LoadFeedback) : ℚ :=
  (fbs.map LoadFeedback.loadScore).sum / (fbs.length : ℚ)

/-- Go's `int(x)` conversion of a `float64`: truncation toward zero. -/
def goInt (q : ℚ) : ℤ := if 0 ≤ q then ⌊q⌋ else -⌊-q⌋

/-- `adjustBatchSize` from `batcher.go` lines 296–337: one controller step.
Empty ring: no change.  Otherwise three-band policy on the average score with
multiplicative step `int(math.Max(size·factor, 1))`, then clamp. -/
def adjustStep (st : BState) : BState :=
  if st.recentFeedback.length = 0 then st
  else
    let avgLoad := ringAverage st.recentFeedback
    let newSize :=
      if avgLoad < 0.25 then
        st.currentBatchSize + goInt (max ((st.currentBatchSize : ℚ) * st.cfg.adjustmentFactor) 1)
      else if 0.55 < avgLoad then
        st.currentBatchSize - goInt (max ((st.currentBatchSize : ℚ) * st.cfg.adjustmentFactor) 1)
      else st.currentBatchSize
    let newSize := if newSize < st.cfg.minBatchSize then st.cfg.minBatchSize else newSize
    let newSize := if st.cfg.maxBatchSize < newSize then st.cfg.maxBatchSize else newSize
    { st with currentBatchSize := newSize }

/-- One event of an interleaving: a producer's `Add`, an explicit `Flush`
(also standing for the timer callback, which calls `Flush`), a `Close`, or a
tick of the background controller. -/
inductive Event where
  | add (item : Item) (fb : Option LoadFeedback) (herr : Bool)
  | flush (fb : Option LoadFeedback) (herr : Bool)
  | close (fb : Option LoadFeedback) (herr : Bool)
  | adjust

/-- State effect of one event. -/
def stepEvent (st : BState) (e : Event) : BState :=
  match e with
  | .add i fb h => (addStep st i fb h).1
  | .flush fb h => (flushStep st fb h).1
  | .close fb h => (closeStep st fb h).1
  | .adjust => adjustStep st

/-- Run a list of events from a state. -/
def runTrace (st : BState) (es : List Event) : BState := es.foldl stepEvent st

/-- Iterate the controller step. -/
def adjustIter : ℕ → BState → BState
  | 0, st => st
  | k + 1, st => adjustIter k (adjustStep st)

/-- Ghost-augmented step: alongside the state, track `g`, the largest value
`currentBatchSize` has taken since the pending buffer was last empty.  When
the buffer is empty the window restarts at the present size; otherwise `g`
absorbs the present size. -/
def stepG (p : BState × ℤ) (e : Event) : BState × ℤ :=
  let st := stepEvent p.1 e
  (st, if st.batch.length = 0 then st.currentBatchSize else max p.2 st.currentBatchSize)

/-- Run a list of events with the ghost bound. -/
def runTraceG (p : BState × ℤ) (es : List Event) : BState × ℤ := es.foldl stepG p

/-- Modelled from the spec's words (§4.2 / claim C6): the load-score formula
`min(1, 0.60·cpu + 0.15·min(q/100,1) + 0.15·err + 0.10·min(locks/50,1))`,
to be compared with the source's `LoadFeedback.loadScore`. -/
def loadScoreSpec (lf : LoadFeedback) : ℚ :=
  min 1 (0.60 * lf.cpuLoad + 0.15 * min ((lf.queueDepth : ℚ) / 100) 1
    + 0.15 * lf.errorRate + 0.10 * min ((lf.dbLocks : ℚ) / 50) 1)

/-- Clamp `v` into `[lo, hi]`, low bound first, as both `New` and
`adjustBatchSize` do. -/
def clampSeq (lo hi v : ℤ) : ℤ :=
  let v := if v < lo then lo else v
  if hi < v then hi else v

/-- Modelled from the spec's words (claim C4): one controller step given the
ring average `avg` and current size `s` — three bands with step
`max(1, ⌊s·f⌋)`, each case clamped into `[lo, hi]`.  To be compared with the
source's `adjustStep`. -/
def adjustSpec (lo hi : ℤ) (f : ℚ) (avg : ℚ) (s : ℤ) : ℤ :=
  if avg < 0.25 then clampSeq lo hi (s + max 1 ⌊(s : ℚ) * f⌋)
  else if avg ≤ 0.55 then clampSeq lo hi s
  else clampSeq lo hi (s - max 1 ⌊(s : ℚ) * f⌋)

/-- A concrete handler (counts for `HandlerFunc ≠ nil`; its behaviour enters
traces through the event data). -/
def hconst : HandlerFunc := fun _ => (none, false)

/-- A concrete valid configuration used by witnesses. -/
def cfgGood : Config :=
  { initialBatchSize := 10
    minBatchSize := 5
    maxBatchSize := 50
    timeout := 0
    handlerFunc := some hconst
    adjustmentFactor := 0
    loadCheckInterval := 0 }

/-- Configuration for the size-trigger counterexample: aggressive shrink
factor so one controller tick drops the size below the pending length. -/
def cfg1 : Config :=
  { initialBatchSize := 3
    minBatchSize := 1
    maxBatchSize := 100
    timeout := 0
    handlerFunc := some hconst
    adjustmentFactor := 0.9
    loadCheckInterval := 1 }

/-- The state `New cfg1` produces. -/
def b1 : BState :=
  { batch := []
    cfg := cfg1
    timer := false
    closed := false
    currentBatchSize := 3
    recentFeedback := []
    maxFeedbackLen := 10 }

/-- Feedback whose load score is exactly 1 (saturated backend). -/
def fbHigh : LoadFeedback :=
  { cpuLoad := 1, queueDepth := 200, processingTime := 0, errorRate := 1, dbLocks := 100 }

/-- The synthetic constant feedback of P6's downward scenario:
`cpu_load = 0.9`, all other fields zero. -/
def fb09 : LoadFeedback :=
  { cpuLoad := 0.9, queueDepth := 0, processingTime := 0, errorRate := 0, dbLocks := 0 }

/-- The synthetic constant feedback of P6's upward scenario: all fields 0. -/
def fb00 : LoadFeedback :=
  { cpuLoad := 0, queueDepth := 0, processingTime := 0, errorRate := 0, dbLocks := 0 }

/-- State for the P6 downward scenario, as in the spec's adaptation test:
`initial = 20`, `min = 5`, `max = 50`, factor `0.2`, ring holding the
constant `cpu_load = 0.9` feedback. -/
def st09 : BState :=
  { batch := []
    cfg := { initialBatchSize := 20, minBatchSize := 5, maxBatchSize := 50, timeout := 0,
             handlerFunc := some hconst, adjustmentFactor := 0.2, loadCheckInterval := 5000000000 }
    timer := false
    closed := false
    currentBatchSize := 20
    recentFeedback := [fb09]
    maxFeedbackLen := 10 }

/-- State for the P6 upward scenario: same configuration, ring holding the
all-zero feedback. -/
def st00 : BState :=
  { batch := []
    cfg := { initialBatchSize := 20, minBatchSize := 5, maxBatchSize := 50, timeout := 0,
             handlerFunc := some hconst, adjustmentFactor := 0.2, loadCheckInterval := 5000000000 }
    timer := false
    closed := false
    currentBatchSize := 20
    recentFeedback := [fb00]
    maxFeedbackLen := 10 }

/-- The event trace of the size-trigger counterexample: fill and flush one
batch of 3 (recording saturated feedback), leave 2 items pending, then let
the controller shrink the size from 3 to 1. -/
def trace1 : List Event :=
  [.add 1 none false, .add 2 none false, .add 3 (some fbHigh) false,
   .add 4 none false, .add 5 none false, .adjust]

/-- The state after `trace1`: two pending items, the controller has cut the
size from 3 to 1, the saturated feedback is in the ring. -/
def stAfter1 : BState :=
  { batch := [4, 5]
    cfg := cfg1
    timer := false
    closed := false
    currentBatchSize := 1
    recentFeedback := [fbHigh]
    maxFeedbackLen := 10 }

/-- The state `New cfgGood` produces (factor and interval defaulted). -/
def bGood : BState :=
  { batch := []
    cfg := { cfgGood with adjustmentFactor := 0.2, loadCheckInterval := 5 * nanosPerSecond }
    timer := false
    closed := false
    currentBatchSize := 10
    recentFeedback := []
    maxFeedbackLen := 10 }

/-- Effective minimum size after defaulting (`MinBatchSize ≤ 0` means unset). -/
def effMin (cfg : Config) : ℤ := if cfg.minBatchSize ≤ 0 then 1 else cfg.minBatchSize

/-- Effective maximum size after defaulting (`MaxBatchSize ≤ 0` means unset). -/
def effMax (cfg : Config) : ℤ := if cfg.maxBatchSize ≤ 0 then 1000 else cfg.maxBatchSize

/-- The configuration as `New` stores it on success: defaults applied and the
initial size clamped into the effective bounds. -/
def resolveCfg (cfg : Config) : Config :=
  { cfg with
    minBatchSize := effMin cfg
    maxBatchSize := effMax cfg
    initialBatchSize := clampSeq (effMin cfg) (effMax cfg) cfg.initialBatchSize
    adjustmentFactor := if cfg.adjustmentFactor ≤ 0 then 0.2 else cfg.adjustmentFactor
    loadCheckInterval := if cfg.loadCheckInterval ≤ 0 then 5 * nanosPerSecond
      else cfg.loadCheckInterval }

instance (o : Option HandlerFunc) : Decidable (o = none) :=
  decidable_of_iff (o.isNone = true) (by cases o <;> simp)

section NewLemmas

variable (c : Config)

lemma defaultMin_eq : defaultMin c = { c with minBatchSize := effMin c } := by
  unfold defaultMin effMin; split_ifs <;> simp

lemma defaultMax_eq : defaultMax c = { c with maxBatchSize := effMax c } := by
  unfold defaultMax effMax; split_ifs <;> simp

lemma clampInitLow_eq : clampInitLow c = { c with initialBatchSize :=
    if c.initialBatchSize < c.minBatchSize then c.minBatchSize else c.initialBatchSize } := by
  unfold clampInitLow; split_ifs <;> simp

lemma clampInitHigh_eq : clampInitHigh c = { c with initialBatchSize :=
    if c.maxBatchSize < c.initialBatchSize then c.maxBatchSize else c.initialBatchSize } := by
  unfold clampInitHigh; split_ifs <;> simp

lemma defaultFactor_eq : defaultFactor c = { c with adjustmentFactor :=
    if c.adjustmentFactor ≤ 0 then 0.2 else c.adjustmentFactor } := by
  unfold defaultFactor; split_ifs <;> simp

lemma defaultInterval_eq : defaultInterval c = { c with loadCheckInterval :=
    if c.loadCheckInterval ≤ 0 then 5 * nanosPerSecond else c.loadCheckInterval } := by
  unfold defaultInterval; split_ifs <;> simp

/-- The pipeline of defaulting and clamping stages equals `resolveCfg`. -/
lemma resolve_pipeline :
    defaultInterval (defaultFactor (clampInitHigh (clampInitLow (defaultMax (defaultMin c)))))
      = resolveCfg c := by
  simp only [defaultMin_eq, defaultMax_eq, clampInitLow_eq, clampInitHigh_eq,
    defaultFactor_eq, defaultInterval_eq, resolveCfg, clampSeq]
  rfl

/-- The initial size the pipeline stores is the clamped one. -/
lemma pipeline_init :
    (clampInitHigh (clampInitLow (defaultMax (defaultMin c)))).initialBatchSize
      = clampSeq (effMin c) (effMax c) c.initialBatchSize := by
  simp only [defaultMin_eq, defaultMax_eq, clampInitLow_eq, clampInitHigh_eq, clampSeq]
  rfl

lemma pipeline_min_max :
    (defaultMax (defaultMin c)).minBatchSize = effMin c ∧
    (defaultMax (defaultMin c)).maxBatchSize = effMax c ∧
    effMax (defaultMin c) = effMax c := by
  refine ⟨?_, ?_, ?_⟩ <;> simp [defaultMin_eq, defaultMax_eq, effMax]

lemma pipeline_handler :
    (clampInitHigh (clampInitLow (defaultMax (defaultMin c)))).handlerFunc = c.handlerFunc := by
  simp [defaultMin_eq, defaultMax_eq, clampInitLow_eq, clampInitHigh_eq]

end NewLemmas

/-- Characterization of `New`: it fails with `ErrInvalidConfig` exactly on a
non-positive initial size, a nil handler, or inverted effective bounds, and
otherwise returns the fully resolved initial state. -/
theorem new_eq (cfg : Config) :
    New cfg =
      if cfg.initialBatchSize ≤ 0 ∨ cfg.handlerFunc = none ∨ effMax cfg < effMin cfg then
        .error .errInvalidConfig
      else
        .ok { batch := []
              cfg := resolveCfg cfg
              timer := false
              closed := false
              currentBatchSize := clampSeq (effMin cfg) (effMax cfg) cfg.initialBatchSize
              recentFeedback := []
              maxFeedbackLen := 10 } := by
  by_cases h1 : cfg.initialBatchSize ≤ 0
  · simp [New, h1]
  by_cases h2 : effMax cfg < effMin cfg
  · simp [New, h1, h2, (pipeline_min_max cfg).1, (pipeline_min_max cfg).2.1]
  by_cases h3 : cfg.handlerFunc = none
  · simp [New, h1, h2, h3, Option.isNone_iff_eq_none,
      (pipeline_min_max cfg).1, (pipeline_min_max cfg).2.1, pipeline_handler]
  have e2 : ¬ ((defaultMax (defaultMin cfg)).maxBatchSize
      < (defaultMax (defaultMin cfg)).minBatchSize) := by
    rw [(pipeline_min_max cfg).2.1, (pipeline_min_max cfg).1]; exact h2
  have e3 : ¬ ((clampInitHigh (clampInitLow (defaultMax (defaultMin cfg)))).handlerFunc.isNone
      = true) := by
    simpa [pipeline_handler, Option.isNone_iff_eq_none] using h3
  simp only [New, if_neg h1, if_neg e2, if_neg e3, Bool.false_eq_true]
  rw [resolve_pipeline]
  simp [h1, h2, h3, resolveCfg]

section StepLemmas

variable (st : BState) (i : Item) (fb : Option LoadFeedback) (herr : Bool)

lemma recordFeedback_length_le {fbs : List LoadFeedback} {n : ℕ} (f : LoadFeedback)
    (h : fbs.length ≤ n) : (recordFeedback fbs n f).length ≤ n := by
  simp only [recordFeedback]
  split_ifs with hh <;> simp_all

@[simp] lemma recordOpt_batch : (recordOpt st fb).batch = st.batch := by
  cases fb <;> rfl

@[simp] lemma recordOpt_cfg : (recordOpt st fb).cfg = st.cfg := by
  cases fb <;> rfl

@[simp] lemma recordOpt_timer : (recordOpt st fb).timer = st.timer := by
  cases fb <;> rfl

@[simp] lemma recordOpt_closed : (recordOpt st fb).closed = st.closed := by
  cases fb <;> rfl

@[simp] lemma recordOpt_cur : (recordOpt st fb).currentBatchSize = st.currentBatchSize := by
  cases fb <;> rfl

@[simp] lemma recordOpt_maxLen : (recordOpt st fb).maxFeedbackLen = st.maxFeedbackLen := by
  cases fb <;> rfl

lemma recordOpt_ring_length (h : st.recentFeedback.length ≤ st.maxFeedbackLen) :
    (recordOpt st fb).recentFeedback.length ≤ st.maxFeedbackLen := by
  cases fb with
  | none => exact h
  | some f => exact recordFeedback_length_le f h

lemma addStep_closed (h : st.closed = true) : addStep st i fb herr = (st, .errClosed) := by
  simp [addStep, h]

lemma addStep_detach (h : st.closed = false)
    (hc : st.currentBatchSize ≤ (st.batch.length : ℤ) + 1) :
    addStep st i fb herr =
      (recordOpt { st with batch := [], timer := false } fb,
       .flushed (st.batch ++ [i]) herr) := by
  have hlen : ((st.batch ++ [i]).length : ℤ) = (st.batch.length : ℤ) + 1 := by
    simp
  simp only [addStep, h, Bool.false_eq_true, if_false, hlen, if_pos hc,
    detachBatchLocked, stopTimerLocked]
  simp

lemma addStep_keep (h : st.closed = false)
    (hc : ¬ st.currentBatchSize ≤ (st.batch.length : ℤ) + 1) :
    addStep st i fb herr =
      (if st.batch.length = 0 ∧ 0 < st.cfg.timeout ∧ st.timer = false
       then { st with batch := st.batch ++ [i], timer := true }
       else { st with batch := st.batch ++ [i] }, .added) := by
  have hlen : ((st.batch ++ [i]).length : ℤ) = (st.batch.length : ℤ) + 1 := by
    simp
  simp only [addStep, h, Bool.false_eq_true, if_false, hlen, if_neg hc, startTimerLocked]
  split_ifs <;> simp_all

lemma flushStep_empty (h : st.batch = []) : flushStep st fb herr = (st, none, false) := by
  simp [flushStep, h]

lemma flushStep_nonempty (h : st.batch ≠ []) :
    flushStep st fb herr =
      (recordOpt { st with batch := [], timer := false } fb, some st.batch, herr) := by
  have : st.batch.length ≠ 0 := by simpa using h
  simp only [flushStep, this, if_false, detachBatchLocked, stopTimerLocked]

lemma closeStep_closed (h : st.closed = true) : closeStep st fb herr = (st, none, false) := by
  simp [closeStep, h]

lemma closeStep_open (h : st.closed = false) :
    closeStep st fb herr = flushStep { st with closed := true } fb herr := by
  simp [closeStep, h]

@[simp] lemma adjustStep_batch : (adjustStep st).batch = st.batch := by
  simp only [adjustStep]; split_ifs <;> rfl

@[simp] lemma adjustStep_cfg : (adjustStep st).cfg = st.cfg := by
  simp only [adjustStep]; split_ifs <;> rfl

@[simp] lemma adjustStep_closed : (adjustStep st).closed = st.closed := by
  simp only [adjustStep]; split_ifs <;> rfl

@[simp] lemma adjustStep_timer : (adjustStep st).timer = st.timer := by
  simp only [adjustStep]; split_ifs <;> rfl

@[simp] lemma adjustStep_ring : (adjustStep st).recentFeedback = st.recentFeedback := by
  simp only [adjustStep]; split_ifs <;> rfl

@[simp] lemma adjustStep_maxLen : (adjustStep st).maxFeedbackLen = st.maxFeedbackLen := by
  simp only [adjustStep]; split_ifs <;> rfl

lemma adjustStep_empty (h : st.recentFeedback = []) : adjustStep st = st := by
  simp [adjustStep, h]

lemma adjustStep_size_bounds
    (hlo : st.cfg.minBatchSize ≤ st.currentBatchSize)
    (hhi : st.currentBatchSize ≤ st.cfg.maxBatchSize) :
    st.cfg.minBatchSize ≤ (adjustStep st).currentBatchSize ∧
      (adjustStep st).currentBatchSize ≤ st.cfg.maxBatchSize := by
  simp only [adjustStep]
  split_ifs <;> simp_all <;> omega

end StepLemmas

/-- Inductive invariant maintained by every event, for a state paired with
the ghost bound `g` of `stepG`: the configured bounds hold for
`currentBatchSize`; the pending length is zero or strictly below `g`;
`g` dominates the current size; a closed batcher has an empty buffer; and
the feedback ring is within capacity. -/
def BInv (p : BState × ℤ) : Prop :=
  1 ≤ p.1.cfg.minBatchSize ∧
  p.1.cfg.minBatchSize ≤ p.1.currentBatchSize ∧
  p.1.currentBatchSize ≤ p.1.cfg.maxBatchSize ∧
  (p.1.batch.length = 0 ∨ (p.1.batch.length : ℤ) < p.2) ∧
  p.1.currentBatchSize ≤ p.2 ∧
  (p.1.closed = true → p.1.batch = []) ∧
  p.1.recentFeedback.length ≤ p.1.maxFeedbackLen

lemma inv_stepG {st : BState} {g : ℤ} (hI : BInv (st, g)) (e : Event) :
    BInv (stepG (st, g) e) := by
  obtain ⟨h1, h2, h3, h4, h5, h6, h7⟩ := hI
  dsimp only at h1 h2 h3 h4 h5 h6 h7
  cases e with
  | add i fb herr =>
    cases hcl : st.closed with
    | true =>
      have hb : st.batch = [] := h6 hcl
      have hG : stepG (st, g) (.add i fb herr) = (st, st.currentBatchSize) := by
        simp [stepG, stepEvent, addStep_closed st i fb herr hcl, hb]
      rw [hG]
      exact ⟨h1, h2, h3, Or.inl (by simp [hb]), le_refl _, h6, h7⟩
    | false =>
      by_cases hc : st.currentBatchSize ≤ (st.batch.length : ℤ) + 1
      · have hG : stepG (st, g) (.add i fb herr) =
            (recordOpt { st with batch := [], timer := false } fb, st.currentBatchSize) := by
          simp [stepG, stepEvent, addStep_detach st i fb herr hcl hc]
        rw [hG]
        refine ⟨by simpa using h1, by simpa using h2, by simpa using h3,
          Or.inl (by simp), by simp, by simp [hcl], ?_⟩
        have hrl := recordOpt_ring_length { st with batch := [], timer := false } fb h7
        simpa using hrl
      · have hne : ¬ (st.batch ++ [i]).length = 0 := by simp
        have hlt : ((st.batch ++ [i]).length : ℤ) < max g st.currentBatchSize := by
          have h9 : ((st.batch ++ [i]).length : ℤ) = (st.batch.length : ℤ) + 1 := by simp
          rw [h9]
          exact lt_of_lt_of_le (by omega) (le_max_right g st.currentBatchSize)
        by_cases ht : st.batch.length = 0 ∧ 0 < st.cfg.timeout ∧ st.timer = false
        · have hG : stepG (st, g) (.add i fb herr) =
              ({ st with batch := st.batch ++ [i], timer := true },
               max g st.currentBatchSize) := by
            simp only [stepG, stepEvent, addStep_keep st i fb herr hcl hc, if_pos ht]
            simp [hne]
          rw [hG]
          exact ⟨h1, h2, h3, Or.inr (by simpa using hlt), le_max_right _ _,
            by simp [hcl], h7⟩
        · have hG : stepG (st, g) (.add i fb herr) =
              ({ st with batch := st.batch ++ [i] }, max g st.currentBatchSize) := by
            simp only [stepG, stepEvent, addStep_keep st i fb herr hcl hc, if_neg ht]
            simp [hne]
          rw [hG]
          exact ⟨h1, h2, h3, Or.inr (by simpa using hlt), le_max_right _ _,
            by simp [hcl], h7⟩
  | flush fb herr =>
    by_cases hb : st.batch = []
    · have hG : stepG (st, g) (.flush fb herr) = (st, st.currentBatchSize) := by
        simp [stepG, stepEvent, flushStep_empty st fb herr hb, hb]
      rw [hG]
      exact ⟨h1, h2, h3, Or.inl (by simp [hb]), le_refl _, h6, h7⟩
    · have hG : stepG (st, g) (.flush fb herr) =
          (recordOpt { st with batch := [], timer := false } fb, st.currentBatchSize) := by
        simp [stepG, stepEvent, flushStep_nonempty st fb herr hb]
      rw [hG]
      refine ⟨by simpa using h1, by simpa using h2, by simpa using h3,
        Or.inl (by simp), by simp, by simp [← h6], ?_⟩
      · have hrl := recordOpt_ring_length { st with batch := [], timer := false } fb h7
        simpa using hrl
  | close fb herr =>
    cases hcl : st.closed with
    | true =>
      have hb : st.batch = [] := h6 hcl
      have hG : stepG (st, g) (.close fb herr) = (st, st.currentBatchSize) := by
        simp [stepG, stepEvent, closeStep_closed st fb herr hcl, hb]
      rw [hG]
      exact ⟨h1, h2, h3, Or.inl (by simp [hb]), le_refl _, h6, h7⟩
    | false =>
      by_cases hb : st.batch = []
      · have heq2 := flushStep_empty { st with closed := true } fb herr (by simpa using hb)
        have hG : stepG (st, g) (.close fb herr) =
            ({ st with closed := true }, st.currentBatchSize) := by
          simp only [stepG, stepEvent, closeStep_open st fb herr hcl, heq2]
          simp [hb]
        rw [hG]
        exact ⟨h1, h2, h3, Or.inl (by simpa using hb), le_refl _,
          fun _ => by simpa using hb, h7⟩
      · have heq2 := flushStep_nonempty { st with closed := true } fb herr (by simpa using hb)
        have hG : stepG (st, g) (.close fb herr) =
            (recordOpt { st with closed := true, batch := [], timer := false } fb,
             st.currentBatchSize) := by
          simp [stepG, stepEvent, closeStep_open st fb herr hcl, heq2]
        rw [hG]
        refine ⟨by simpa using h1, by simpa using h2, by simpa using h3,
          Or.inl (by simp), by simp, fun _ => by simp, ?_⟩
        · have hrl := recordOpt_ring_length
            { st with closed := true, batch := [], timer := false } fb h7
          simpa using hrl
  | adjust =>
    have hbd := adjustStep_size_bounds st h2 h3
    refine ⟨?_, ?_, ?_, ?_, ?_, ?_, ?_⟩ <;>
      dsimp only [stepG, stepEvent] <;>
        simp only [adjustStep_batch, adjustStep_cfg, adjustStep_closed,
          adjustStep_ring, adjustStep_maxLen]
    · exact h1
    · exact hbd.1
    · exact hbd.2
    · split_ifs with hemp
      · exact Or.inl hemp
      · rcases h4 with h4 | h4
        · exact absurd h4 hemp
        · exact Or.inr (lt_of_lt_of_le h4 (le_max_left _ _))
    · split_ifs with hemp
      · exact le_refl _
      · exact le_max_right _ _
    · exact h6
    · exact h7

lemma inv_runTraceG {p : BState × ℤ} (hI : BInv p) (es : List Event) :
    BInv (runTraceG p es) := by
  induction es generalizing p with
  | nil => exact hI
  | cons e es ih => exact ih (inv_stepG hI e)

/-- The invariant holds for the state `New` returns, paired with its own
initial size as ghost bound. -/
lemma inv_new {cfg : Config} {b : BState} (h : New cfg = .ok b) :
    BInv (b, b.currentBatchSize) := by
  rw [new_eq] at h
  split_ifs at h with hcond
  injection h with h
  subst h
  push_neg at hcond
  obtain ⟨hi, hh, hmm⟩ := hcond
  have h1 : 1 ≤ effMin cfg := by unfold effMin; split_ifs <;> omega
  have hcl : effMin cfg ≤ clampSeq (effMin cfg) (effMax cfg) cfg.initialBatchSize ∧
      clampSeq (effMin cfg) (effMax cfg) cfg.initialBatchSize ≤ effMax cfg := by
    simp only [clampSeq]; split_ifs <;> omega
  exact ⟨by simpa [resolveCfg] using h1,
    by simpa [resolveCfg] using hcl.1,
    by simpa [resolveCfg] using hcl.2,
    Or.inl rfl, le_refl _, by simp, by simp⟩

section TraceLemmas

variable (st : BState) (e : Event)

lemma stepG_fst (p : BState × ℤ) : (stepG p e).1 = stepEvent p.1 e := rfl

lemma runTraceG_fst (p : BState × ℤ) (es : List Event) :
    (runTraceG p es).1 = runTrace p.1 es := by
  induction es generalizing p with
  | nil => rfl
  | cons e es ih => exact ih (stepG p e)

lemma stepEvent_cfg : (stepEvent st e).cfg = st.cfg := by
  cases e with
  | add i fb herr =>
    cases hcl : st.closed with
    | true => simp [stepEvent, addStep_closed st i fb herr hcl]
    | false =>
      by_cases hc : st.currentBatchSize ≤ (st.batch.length : ℤ) + 1
      · simp [stepEvent, addStep_detach st i fb herr hcl hc]
      · rw [stepEvent, addStep_keep st i fb herr hcl hc]
        split_ifs <;> simp
  | flush fb herr =>
    by_cases hb : st.batch = []
    · simp [stepEvent, flushStep_empty st fb herr hb]
    · simp [stepEvent, flushStep_nonempty st fb herr hb]
  | close fb herr =>
    cases hcl : st.closed with
    | true => simp [stepEvent, closeStep_closed st fb herr hcl]
    | false =>
      rw [stepEvent, closeStep_open st fb herr hcl]
      by_cases hb : st.batch = []
      · simp [flushStep_empty { st with closed := true } fb herr (by simpa using hb)]
      · simp [flushStep_nonempty { st with closed := true } fb herr (by simpa using hb)]
  | adjust => exact adjustStep_cfg st

lemma stepEvent_maxLen : (stepEvent st e).maxFeedbackLen = st.maxFeedbackLen := by
  cases e with
  | add i fb herr =>
    cases hcl : st.closed with
    | true => simp [stepEvent, addStep_closed st i fb herr hcl]
    | false =>
      by_cases hc : st.currentBatchSize ≤ (st.batch.length : ℤ) + 1
      · simp [stepEvent, addStep_detach st i fb herr hcl hc]
      · rw [stepEvent, addStep_keep st i fb herr hcl hc]
        split_ifs <;> simp
  | flush fb herr =>
    by_cases hb : st.batch = []
    · simp [stepEvent, flushStep_empty st fb herr hb]
    · simp [stepEvent, flushStep_nonempty st fb herr hb]
  | close fb herr =>
    cases hcl : st.closed with
    | true => simp [stepEvent, closeStep_closed st fb herr hcl]
    | false =>
      rw [stepEvent, closeStep_open st fb herr hcl]
      by_cases hb : st.batch = []
      · simp [flushStep_empty { st with closed := true } fb herr (by simpa using hb)]
      · simp [flushStep_nonempty { st with closed := true } fb herr (by simpa using hb)]
  | adjust => exact adjustStep_maxLen st

lemma stepEvent_closed_mono (h : st.closed = true) : (stepEvent st e).closed = true := by
  cases e with
  | add i fb herr => simp [stepEvent, addStep_closed st i fb herr h, h]
  | flush fb herr =>
    by_cases hb : st.batch = []
    · simp [stepEvent, flushStep_empty st fb herr hb, h]
    · simp [stepEvent, flushStep_nonempty st fb herr hb, h]
  | close fb herr => simp [stepEvent, closeStep_closed st fb herr h, h]
  | adjust => simp [stepEvent, h]

lemma runTrace_cfg (es : List Event) : (runTrace st es).cfg = st.cfg := by
  induction es generalizing st with
  | nil => rfl
  | cons e es ih => exact (ih (stepEvent st e)).trans (stepEvent_cfg st e)

lemma runTrace_maxLen (es : List Event) :
    (runTrace st es).maxFeedbackLen = st.maxFeedbackLen := by
  induction es generalizing st with
  | nil => rfl
  | cons e es ih => exact (ih (stepEvent st e)).trans (stepEvent_maxLen st e)

lemma runTrace_closed_mono (es : List Event) (h : st.closed = true) :
    (runTrace st es).closed = true := by
  induction es generalizing st with
  | nil => exact h
  | cons e es ih => exact ih (stepEvent st e) (stepEvent_closed_mono st e h)

lemma closeStep_sets_closed (fb : Option LoadFeedback) (herr : Bool) :
    ((closeStep st fb herr).1).closed = true := by
  cases hcl : st.closed with
  | true => simp [closeStep_closed st fb herr hcl, hcl]
  | false =>
    rw [closeStep_open st fb herr hcl]
    by_cases hb : st.batch = []
    · simp [flushStep_empty { st with closed := true } fb herr (by simpa using hb)]
    · simp [flushStep_nonempty { st with closed := true } fb herr (by simpa using hb)]

end TraceLemmas

section ControllerLemmas

/-- The average of a ring whose entries all equal `fb` is `fb`'s score. -/
lemma ringAverage_const {fbs : List LoadFeedback} {fb : LoadFeedback}
    (hne : fbs ≠ []) (hall : ∀ x ∈ fbs, x = fb) :
    ringAverage fbs = fb.loadScore := by
  have hmap : fbs.map LoadFeedback.loadScore
      = List.replicate fbs.length fb.loadScore := by
    apply List.eq_replicate_iff.mpr
    refine ⟨by simp, ?_⟩
    intro b hb
    obtain ⟨a, ha, rfl⟩ := List.mem_map.mp hb
    rw [hall a ha]
  have hlen : (fbs.length : ℚ) ≠ 0 := by
    have : fbs.length ≠ 0 := by simpa [List.length_eq_zero] using hne
    exact_mod_cast this
  rw [ringAverage, hmap, List.sum_replicate, nsmul_eq_mul,
    mul_div_cancel_left₀ _ hlen]

/-- Go's `int(math.Max(x, 1))` equals the specification's `max(1, ⌊x⌋)`. -/
lemma goInt_max_one (x : ℚ) : goInt (max x 1) = max 1 ⌊x⌋ := by
  rcases le_total x 1 with h | h
  · rw [max_eq_right h]
    have h2 : ⌊x⌋ ≤ 1 := by
      calc ⌊x⌋ ≤ ⌊(1 : ℚ)⌋ := Int.floor_le_floor h
        _ = 1 := by simp
    rw [goInt, if_pos (by norm_num)]
    simp [max_eq_left h2]
  · rw [max_eq_left h]
    have h0 : (0 : ℚ) ≤ x := le_trans (by norm_num) h
    have h2 : 1 ≤ ⌊x⌋ := by
      calc (1 : ℤ) = ⌊(1 : ℚ)⌋ := by simp
        _ ≤ ⌊x⌋ := Int.floor_le_floor h
    rw [goInt, if_pos h0, max_eq_right h2]

lemma one_le_goInt_max (x : ℚ) : 1 ≤ goInt (max x 1) := by
  rw [goInt_max_one]
  exact le_max_left _ _

/-- An in-band average with an in-bounds size leaves the state unchanged. -/
lemma adjustStep_inband {st : BState}
    (havg1 : ¬ ringAverage st.recentFeedback < 0.25)
    (havg2 : ¬ (0.55 : ℚ) < ringAverage st.recentFeedback)
    (hmin : st.cfg.minBatchSize ≤ st.currentBatchSize)
    (hmax : st.currentBatchSize ≤ st.cfg.maxBatchSize) :
    adjustStep st = st := by
  by_cases hlen : st.recentFeedback.length = 0
  · simp [adjustStep, hlen]
  · simp only [adjustStep, hlen, if_false, if_neg havg1, if_neg havg2,
      if_neg (not_lt.mpr hmin), if_neg (not_lt.mpr hmax)]

/-- Iterating the controller commutes with one step. -/
lemma adjustIter_succ (k : ℕ) (st : BState) :
    adjustIter (k + 1) st = adjustStep (adjustIter k st) := by
  induction k generalizing st with
  | zero => rfl
  | succ k ih =>
    show adjustIter (k + 1) (adjustStep st) = _
    rw [ih (adjustStep st)]
    rfl

end ControllerLemmas

/-- One controller step under an under-loaded average: the size does not
decrease, stays within the maximum, and either gains at least 1 or is
already pinned at the maximum. -/
lemma adjustStep_up {st : BState}
    (havg : ringAverage st.recentFeedback < 0.25)
    (hne : st.recentFeedback ≠ [])
    (hmin : st.cfg.minBatchSize ≤ st.currentBatchSize)
    (hmax : st.currentBatchSize ≤ st.cfg.maxBatchSize) :
    st.currentBatchSize ≤ (adjustStep st).currentBatchSize ∧
    (adjustStep st).currentBatchSize ≤ st.cfg.maxBatchSize ∧
    (st.currentBatchSize + 1 ≤ (adjustStep st).currentBatchSize ∨
      (adjustStep st).currentBatchSize = st.cfg.maxBatchSize) := by
  have hlen : ¬ st.recentFeedback.length = 0 := by
    simpa [List.length_eq_zero] using hne
  have hstep := one_le_goInt_max ((st.currentBatchSize : ℚ) * st.cfg.adjustmentFactor)
  simp only [adjustStep, hlen, if_false, if_pos havg]
  refine ⟨?_, ?_, ?_⟩ <;> split_ifs <;> omega

/-- Iterating the controller under an under-loaded average: the ring and
configuration are untouched, the size stays in bounds, never decreases, and
after `k` ticks has gained at least `k` unless pinned at the maximum. -/
lemma adjustIter_up {st : BState}
    (havg : ringAverage st.recentFeedback < 0.25)
    (hne : st.recentFeedback ≠ [])
    (hmin : st.cfg.minBatchSize ≤ st.currentBatchSize)
    (hmax : st.currentBatchSize ≤ st.cfg.maxBatchSize) :
    ∀ k : ℕ,
      (adjustIter k st).recentFeedback = st.recentFeedback ∧
      (adjustIter k st).cfg = st.cfg ∧
      st.cfg.minBatchSize ≤ (adjustIter k st).currentBatchSize ∧
      (adjustIter k st).currentBatchSize ≤ st.cfg.maxBatchSize ∧
      st.currentBatchSize ≤ (adjustIter k st).currentBatchSize ∧
      (st.currentBatchSize + (k : ℤ) ≤ (adjustIter k st).currentBatchSize ∨
        (adjustIter k st).currentBatchSize = st.cfg.maxBatchSize) := by
  intro k
  induction k with
  | zero => exact ⟨rfl, rfl, hmin, hmax, le_refl _, Or.inl (by simp [adjustIter])⟩
  | succ k ih =>
    obtain ⟨ihr, ihc, ihmin, ihmax, ihmono, ihgain⟩ := ih
    have havg' : ringAverage (adjustIter k st).recentFeedback < 0.25 := by
      rw [ihr]; exact havg
    have hne' : (adjustIter k st).recentFeedback ≠ [] := by rw [ihr]; exact hne
    have hmin' : (adjustIter k st).cfg.minBatchSize ≤ (adjustIter k st).currentBatchSize := by
      rw [ihc]; exact ihmin
    have hmax' : (adjustIter k st).currentBatchSize ≤ (adjustIter k st).cfg.maxBatchSize := by
      rw [ihc]; exact ihmax
    have hstep := adjustStep_up havg' hne' hmin' hmax'
    rw [adjustIter_succ]
    refine ⟨?_, ?_, ?_, ?_, ?_, ?_⟩
    · rw [adjustStep_ring, ihr]
    · rw [adjustStep_cfg, ihc]
    · exact le_trans ihmin hstep.1
    · rw [← ihc]; exact hstep.2.1
    · exact le_trans ihmono hstep.1
    · rcases ihgain with h | h
      · rcases hstep.2.2 with h2 | h2
        · left; push_cast; omega
        · right; rw [h2, ihc]
      · right
        have hcm : (adjustIter k st).cfg.maxBatchSize = st.cfg.maxBatchSize := by rw [ihc]
        have h1 := hstep.1
        have h2 := hstep.2.1
        omega

/-- Claim C6: `LoadScore` equals the spec's formula
`min(1, 0.60·cpu + 0.15·min(q/100,1) + 0.15·err + 0.10·min(locks/50,1))`,
and the three documented sample records score in [0, 0.3], [0.3, 0.7] and
[0.7, 1.0] respectively. -/
theorem loadScore_matches_spec :
    (∀ lf : LoadFeedback, lf.loadScore = loadScoreSpec lf) ∧
    ((0 : ℚ) ≤ LoadFeedback.loadScore ⟨0.1, 5, 0, 0, 2⟩ ∧
      LoadFeedback.loadScore ⟨0.1, 5, 0, 0, 2⟩ ≤ 0.3) ∧
    ((0.3 : ℚ) ≤ LoadFeedback.loadScore ⟨0.5, 50, 0, 0.05, 20⟩ ∧
      LoadFeedback.loadScore ⟨0.5, 50, 0, 0.05, 20⟩ ≤ 0.7) ∧
    ((0.7 : ℚ) ≤ LoadFeedback.loadScore ⟨0.9, 150, 0, 0.2, 60⟩ ∧
      LoadFeedback.loadScore ⟨0.9, 150, 0, 0.2, 60⟩ ≤ 1) := by
  refine ⟨?_, by norm_num [LoadFeedback.loadScore, min_def],
    by norm_num [LoadFeedback.loadScore, min_def],
    by norm_num [LoadFeedback.loadScore, min_def]⟩
  intro lf
  simp only [LoadFeedback.loadScore, loadScoreSpec]
  rw [min_comm]
  congr 1
  ring

/-- Claim C5, counterexample: the claim says every record — even one with
fields outside their documented ranges — scores within [0, 1] because
out-of-range values are clamped.  `LoadScore` never clamps a negative
`cpu_load`, so the record with `cpu_load = −1` scores −0.6 < 0. -/
theorem loadScore_negative_counterexample :
    LoadFeedback.loadScore ⟨-1, 0, 0, 0, 0⟩ < 0 := by
  norm_num [LoadFeedback.loadScore, min_def]

/-- Claim C5, amended: the score never exceeds 1 (the final `min` caps it for
arbitrary fields), and it is non-negative whenever all fields are
non-negative; negative fields are not clamped and can drive it below 0. -/
theorem loadScore_bounds_amended :
    (∀ lf : LoadFeedback, lf.loadScore ≤ 1) ∧
    (∀ lf : LoadFeedback, 0 ≤ lf.cpuLoad → 0 ≤ lf.errorRate →
      0 ≤ lf.queueDepth → 0 ≤ lf.dbLocks → 0 ≤ lf.loadScore) := by
  constructor
  · intro lf
    simp only [LoadFeedback.loadScore]
    exact min_le_right _ _
  · intro lf h1 h2 h3 h4
    simp only [LoadFeedback.loadScore]
    have t1 : (0 : ℚ) ≤ lf.cpuLoad * 0.6 := mul_nonneg h1 (by norm_num)
    have t2 : (0 : ℚ) ≤ min ((lf.queueDepth : ℚ) / 100) 1 * 0.15 := by
      refine mul_nonneg (le_min ?_ (by norm_num)) (by norm_num)
      have : (0 : ℚ) ≤ (lf.queueDepth : ℚ) := by exact_mod_cast h3
      positivity
    have t3 : (0 : ℚ) ≤ lf.errorRate * 0.15 := mul_nonneg h2 (by norm_num)
    have t4 : (0 : ℚ) ≤ min ((lf.dbLocks : ℚ) / 50) 1 * 0.1 := by
      refine mul_nonneg (le_min ?_ (by norm_num)) (by norm_num)
      have : (0 : ℚ) ≤ (lf.dbLocks : ℚ) := by exact_mod_cast h4
      positivity
    refine le_min ?_ (by norm_num)
    linarith

/-- Witness for `loadScore_bounds_amended` at a concrete record. -/
theorem loadScore_bounds_amended_witness :
    (0 : ℚ) ≤ LoadFeedback.loadScore ⟨0.9, 3, 0, 0.1, 2⟩ ∧
      LoadFeedback.loadScore ⟨0.9, 3, 0, 0.1, 2⟩ ≤ 1 :=
  ⟨loadScore_bounds_amended.2 ⟨0.9, 3, 0, 0.1, 2⟩
      (by norm_num) (by norm_num) (by norm_num) (by norm_num),
   loadScore_bounds_amended.1 ⟨0.9, 3, 0, 0.1, 2⟩⟩

/-- Claim C4: one controller step with a non-empty ring realizes the three-band
policy with step `max(1, ⌊size·factor⌋)`, clamped into the configured bounds;
with an empty ring the state is unchanged. -/
theorem adjust_step_policy (st : BState) :
    (st.recentFeedback ≠ [] →
      (adjustStep st).currentBatchSize
        = adjustSpec st.cfg.minBatchSize st.cfg.maxBatchSize st.cfg.adjustmentFactor
            (ringAverage st.recentFeedback) st.currentBatchSize) ∧
    (st.recentFeedback = [] → adjustStep st = st) := by
  constructor
  · intro hne
    have hlen : ¬ st.recentFeedback.length = 0 := by
      simpa [List.length_eq_zero] using hne
    simp only [adjustStep, hlen, if_false, goInt_max_one, adjustSpec, clampSeq]
    split_ifs <;> first | rfl | omega | linarith
  · exact adjustStep_empty st

/-- Witness for `adjust_step_policy`: the over-loaded state of `trace1`
(average score 1, size 3, factor 0.9) steps to
`clamp(3 − max(1, ⌊2.7⌋)) = 1`, and the empty-ring state is unchanged. -/
theorem adjust_step_policy_witness :
    (adjustStep (runTrace b1 trace1)).currentBatchSize
      = adjustSpec 1 100 0.9 (ringAverage (runTrace b1 trace1).recentFeedback)
          (runTrace b1 trace1).currentBatchSize ∧
    adjustStep b1 = b1 :=
  ⟨(adjust_step_policy (runTrace b1 trace1)).1 (by decide),
   (adjust_step_policy b1).2 (by decide)⟩

/-- Claim C10: `Add` on a closed batcher returns `ErrClosed` and leaves the
whole state — pending buffer, current size, timer, feedback ring, closed
flag — untouched, without invoking the handler (the outcome is not
`flushed`). -/
theorem add_on_closed_noop (st : BState) (item : Item) (fb : Option LoadFeedback)
    (herr : Bool) (h : st.closed = true) :
    addStep st item fb herr = (st, .errClosed) :=
  addStep_closed st item fb herr h

/-- Witness for `add_on_closed_noop` on a concrete closed state. -/
theorem add_on_closed_noop_witness :
    addStep { b1 with closed := true } 7 none false
      = ({ b1 with closed := true }, .errClosed) :=
  add_on_closed_noop { b1 with closed := true } 7 none false rfl

/-- Claim C3: `New` fails with `ErrInvalidConfig` (returning no batcher) exactly
when the initial size is non-positive, the handler is nil, or the effective
minimum exceeds the effective maximum after defaulting (min 1, max 1000 when
unset); otherwise it succeeds with the remaining defaults applied
(factor 0.2, interval 5 s) and the initial size clamped into the bounds. -/
theorem new_validation (cfg : Config) :
    (New cfg = .error .errInvalidConfig ↔
      (cfg.initialBatchSize ≤ 0 ∨ cfg.handlerFunc = none ∨ effMax cfg < effMin cfg)) ∧
    (¬ (cfg.initialBatchSize ≤ 0 ∨ cfg.handlerFunc = none ∨ effMax cfg < effMin cfg) →
      ∃ b, New cfg = .ok b) ∧
    (∀ b, New cfg = .ok b →
      b.currentBatchSize = clampSeq (effMin cfg) (effMax cfg) cfg.initialBatchSize ∧
      b.cfg.minBatchSize = effMin cfg ∧
      b.cfg.maxBatchSize = effMax cfg ∧
      b.cfg.adjustmentFactor
        = (if cfg.adjustmentFactor ≤ 0 then (0.2 : ℚ) else cfg.adjustmentFactor) ∧
      b.cfg.loadCheckInterval
        = (if cfg.loadCheckInterval ≤ 0 then 5 * nanosPerSecond
           else cfg.loadCheckInterval)) := by
  by_cases hcond : cfg.initialBatchSize ≤ 0 ∨ cfg.handlerFunc = none ∨ effMax cfg < effMin cfg
  · rw [new_eq]
    simp [hcond]
  · rw [new_eq]
    simp only [hcond, if_false, iff_false, not_false_iff]
    refine ⟨by simp, fun _ => ⟨_, rfl⟩, ?_⟩
    intro b hb
    injection hb with hb
    subst hb
    simp [resolveCfg]

/-- Witness for `new_validation` at a concrete valid configuration. -/
theorem new_validation_witness :
    bGood.currentBatchSize = clampSeq (effMin cfgGood) (effMax cfgGood) cfgGood.initialBatchSize ∧
    bGood.cfg.minBatchSize = effMin cfgGood ∧
    bGood.cfg.maxBatchSize = effMax cfgGood ∧
    bGood.cfg.adjustmentFactor
      = (if cfgGood.adjustmentFactor ≤ 0 then (0.2 : ℚ) else cfgGood.adjustmentFactor) ∧
    bGood.cfg.loadCheckInterval
      = (if cfgGood.loadCheckInterval ≤ 0 then 5 * nanosPerSecond
         else cfgGood.loadCheckInterval) :=
  (new_validation cfgGood).2.2 bGood (by rfl)

lemma runTrace_append (st : BState) (es es' : List Event) :
    runTrace st (es ++ es') = runTrace (runTrace st es) es' :=
  List.foldl_append stepEvent st es es'

/-- Claim C7: after a successful construction, `min_size ≤ current_size ≤
max_size` holds in every reachable state: for the initial state (`es = []`)
and after any interleaving of admissions, flushes, closes and controller
steps. -/
theorem current_size_bounds {cfg : Config} {b : BState} (h : New cfg = .ok b)
    (es : List Event) :
    b.cfg.minBatchSize ≤ (runTrace b es).currentBatchSize ∧
      (runTrace b es).currentBatchSize ≤ b.cfg.maxBatchSize := by
  obtain ⟨-, h2, h3, -, -, -, -⟩ := inv_runTraceG (inv_new h) es
  rw [runTraceG_fst, runTrace_cfg] at h2 h3
  exact ⟨h2, h3⟩

/-- Witness for `current_size_bounds`: a fresh batcher after one controller
tick. -/
theorem current_size_bounds_witness :
    bGood.cfg.minBatchSize ≤ (runTrace bGood [Event.adjust]).currentBatchSize ∧
      (runTrace bGood [Event.adjust]).currentBatchSize ≤ bGood.cfg.maxBatchSize :=
  @current_size_bounds cfgGood bGood (by rfl) [Event.adjust]

/-- Claim C9: the feedback window is 10 (`New` always sets `maxFeedbackLen` to
the default 10; `Config` exposes no override): the ring never holds more than
10 records in any reachable state, and `recordFeedback` at capacity appends
the new record and drops the eldest (FIFO), below capacity it only appends. -/
theorem feedback_ring_bounded {cfg : Config} {b : BState} (h : New cfg = .ok b) :
    b.maxFeedbackLen = 10 ∧
    (∀ es, (runTrace b es).recentFeedback.length ≤ 10) ∧
    (∀ (fbs : List LoadFeedback) (f : LoadFeedback),
      fbs.length = 10 → recordFeedback fbs 10 f = fbs.drop 1 ++ [f]) ∧
    (∀ (fbs : List LoadFeedback) (f : LoadFeedback),
      fbs.length < 10 → recordFeedback fbs 10 f = fbs ++ [f]) := by
  have hml : b.maxFeedbackLen = 10 := by
    rw [new_eq] at h
    split_ifs at h
    injection h with h
    subst h
    rfl
  refine ⟨hml, ?_, ?_, ?_⟩
  · intro es
    obtain ⟨-, -, -, -, -, -, h7⟩ := inv_runTraceG (inv_new h) es
    rw [runTraceG_fst] at h7
    calc (runTrace b es).recentFeedback.length
        ≤ (runTrace b es).maxFeedbackLen := h7
      _ = b.maxFeedbackLen := runTrace_maxLen b es
      _ = 10 := hml
  · intro fbs f hlen
    have h1 : (1 : ℕ) ≤ fbs.length := by omega
    simp only [recordFeedback, List.length_append, List.length_singleton, hlen]
    rw [if_pos (by omega), List.drop_append_of_le_length h1]
  · intro fbs f hlen
    simp only [recordFeedback, List.length_append, List.length_singleton]
    rw [if_neg (by omega)]

/-- Witness for `feedback_ring_bounded` at a concrete batcher and ring. -/
theorem feedback_ring_bounded_witness :
    bGood.maxFeedbackLen = 10 ∧
    (runTrace bGood [Event.flush none false]).recentFeedback.length ≤ 10 ∧
    recordFeedback [fbHigh] 10 fb09 = [fbHigh, fb09] :=
  ⟨(@feedback_ring_bounded cfgGood bGood (by rfl)).1,
   (@feedback_ring_bounded cfgGood bGood (by rfl)).2.1 [Event.flush none false],
   (@feedback_ring_bounded cfgGood bGood (by rfl)).2.2.2 [fbHigh] fb09 (by norm_num)⟩

/-- Claim C8: once the first `Close` has completed, every later `Add` fails with
`ErrClosed` without changing the state, and every later `Flush` or `Close`
returns success (`nil` error) without detaching a batch — i.e. without
invoking the handler — whatever operations happen in between. -/
theorem closed_rejection {cfg : Config} {b : BState} (h : New cfg = .ok b)
    (es : List Event) (fb : Option LoadFeedback) (herr : Bool) (es2 : List Event)
    (item : Item) (fb2 : Option LoadFeedback) (herr2 : Bool) :
    addStep (runTrace (closeStep (runTrace b es) fb herr).1 es2) item fb2 herr2
        = (runTrace (closeStep (runTrace b es) fb herr).1 es2, .errClosed) ∧
    flushStep (runTrace (closeStep (runTrace b es) fb herr).1 es2) fb2 herr2
        = (runTrace (closeStep (runTrace b es) fb herr).1 es2, none, false) ∧
    closeStep (runTrace (closeStep (runTrace b es) fb herr).1 es2) fb2 herr2
        = (runTrace (closeStep (runTrace b es) fb herr).1 es2, none, false) := by
  have hstep : (closeStep (runTrace b es) fb herr).1
      = stepEvent (runTrace b es) (.close fb herr) := rfl
  have hc1 : ((closeStep (runTrace b es) fb herr).1).closed = true :=
    closeStep_sets_closed _ _ _
  have hc2 : (runTrace (closeStep (runTrace b es) fb herr).1 es2).closed = true :=
    runTrace_closed_mono _ es2 hc1
  have hcomp : runTrace (closeStep (runTrace b es) fb herr).1 es2
      = runTrace b (es ++ .close fb herr :: es2) := by
    rw [hstep, show Event.close fb herr :: es2 = [Event.close fb herr] ++ es2 from rfl,
      ← List.append_assoc, runTrace_append, runTrace_append]
    rfl
  have hb2 : (runTrace (closeStep (runTrace b es) fb herr).1 es2).batch = [] := by
    obtain ⟨-, -, -, -, -, h6, -⟩ :=
      inv_runTraceG (inv_new h) (es ++ .close fb herr :: es2)
    rw [runTraceG_fst] at h6
    rw [hcomp]
    exact h6 (by rw [← hcomp]; exact hc2)
  exact ⟨addStep_closed _ item fb2 herr2 hc2,
    flushStep_empty _ fb2 herr2 hb2,
    closeStep_closed _ fb2 herr2 hc2⟩

/-- Witness for `closed_rejection`: a fresh batcher closed immediately. -/
theorem closed_rejection_witness :
    addStep (runTrace (closeStep (runTrace bGood []) none false).1 []) 1 none false
        = (runTrace (closeStep (runTrace bGood []) none false).1 [], .errClosed) ∧
    flushStep (runTrace (closeStep (runTrace bGood []) none false).1 []) none false
        = (runTrace (closeStep (runTrace bGood []) none false).1 [], none, false) ∧
    closeStep (runTrace (closeStep (runTrace bGood []) none false).1 []) none false
        = (runTrace (closeStep (runTrace bGood []) none false).1 [], none, false) :=
  @closed_rejection cfgGood bGood (by rfl) [] none false [] 1 none false

lemma loadScore_fbHigh : LoadFeedback.loadScore fbHigh = 1 := by
  norm_num [LoadFeedback.loadScore, fbHigh, min_def]

lemma ringAverage_fbHigh : ringAverage [fbHigh] = 1 := by
  rw [@ringAverage_const [fbHigh] fbHigh (List.cons_ne_nil _ _) (by simp), loadScore_fbHigh]

lemma goInt_27_10 : goInt ((27 : ℚ) / 10) = 2 := by
  have h3 : ⌊(27 / 10 : ℚ)⌋ = 2 := by
    rw [Int.floor_eq_iff]
    norm_num
  rw [goInt, if_pos (by norm_num), h3]

lemma trace1_step6 :
    stepEvent { b1 with batch := [4, 5], recentFeedback := [fbHigh] } Event.adjust
      = stAfter1 := by
  show adjustStep _ = _
  simp only [adjustStep, ringAverage_fbHigh]
  norm_num [b1, cfg1, stAfter1, goInt_27_10]

/-- Evaluation of the counterexample trace. -/
lemma trace1_eval : runTrace b1 trace1 = stAfter1 := by
  have s1 : stepEvent b1 (Event.add 1 none false) = { b1 with batch := [1] } := by
    show (addStep b1 1 none false).1 = _
    rw [addStep_keep b1 1 none false rfl (by decide)]
    simp [b1, cfg1]
  have s2 : stepEvent { b1 with batch := [1] } (Event.add 2 none false)
      = { b1 with batch := [1, 2] } := by
    show (addStep _ 2 none false).1 = _
    rw [addStep_keep _ 2 none false rfl (by decide)]
    simp [b1, cfg1]
  have s3 : stepEvent { b1 with batch := [1, 2] } (Event.add 3 (some fbHigh) false)
      = { b1 with recentFeedback := [fbHigh] } := by
    show (addStep _ 3 (some fbHigh) false).1 = _
    rw [addStep_detach _ 3 (some fbHigh) false rfl (by decide)]
    simp [recordOpt, recordFeedback, b1]
  have s4 : stepEvent { b1 with recentFeedback := [fbHigh] } (Event.add 4 none false)
      = { b1 with batch := [4], recentFeedback := [fbHigh] } := by
    show (addStep _ 4 none false).1 = _
    rw [addStep_keep _ 4 none false rfl (by decide)]
    simp [b1, cfg1]
  have s5 : stepEvent { b1 with batch := [4], recentFeedback := [fbHigh] }
      (Event.add 5 none false)
      = { b1 with batch := [4, 5], recentFeedback := [fbHigh] } := by
    show (addStep _ 5 none false).1 = _
    rw [addStep_keep _ 5 none false rfl (by decide)]
    simp [b1, cfg1]
  show stepEvent (stepEvent (stepEvent (stepEvent (stepEvent (stepEvent b1
    (Event.add 1 none false)) (Event.add 2 none false)) (Event.add 3 (some fbHigh) false))
    (Event.add 4 none false)) (Event.add 5 none false)) Event.adjust = stAfter1
  rw [s1, s2, s3, s4, s5, trace1_step6]

lemma new_cfg1 : New cfg1 = .ok b1 := by
  rw [new_eq]
  rw [if_neg (by
    push_neg
    refine ⟨by norm_num [cfg1], by simp [cfg1], by norm_num [cfg1, effMin, effMax]⟩)]
  have hres : resolveCfg cfg1 = cfg1 := by
    simp only [resolveCfg, effMin, effMax, clampSeq, cfg1]
    norm_num
  rw [hres]
  have hclamp : clampSeq (effMin cfg1) (effMax cfg1) cfg1.initialBatchSize = 3 := by
    simp only [effMin, effMax, clampSeq, cfg1]
    norm_num
  rw [hclamp]
  rfl

/-- Claim C1, counterexample: the claim says a size-triggered flush never
hands the handler a batch longer than `current_size` at the moment of
detach, for every interleaving with controller steps.  But after `trace1`
two items are pending while the controller has cut `current_size` to 1; the
next `Add` detaches a batch of 3 > 1. -/
theorem size_trigger_counterexample :
    (runTrace b1 trace1).currentBatchSize = 1 ∧
    (addStep (runTrace b1 trace1) 6 none false).2 = .flushed [4, 5, 6] false ∧
    ¬ ((([4, 5, 6] : List Item).length : ℤ) ≤ (runTrace b1 trace1).currentBatchSize) := by
  rw [trace1_eval]
  refine ⟨rfl, ?_, by decide⟩
  rw [addStep_detach stAfter1 6 none false rfl (by decide)]
  rfl

/-- Claim C1, amended: at every size-triggered detach the handed batch has
length at most `g`, the largest value `current_size` has held since the
pending buffer was last empty (tracked by `runTraceG`).  In particular, when
the controller has not changed `current_size` while the buffer filled, the
bound is `current_size` at the detach itself. -/
theorem size_trigger_bounded {cfg : Config} {b : BState} (h : New cfg = .ok b)
    (es : List Event) (item : Item) (fb : Option LoadFeedback) (herr : Bool)
    (bl : List Item) (herr2 : Bool)
    (hout : (addStep (runTraceG (b, b.currentBatchSize) es).1 item fb herr).2
      = .flushed bl herr2) :
    (bl.length : ℤ) ≤ (runTraceG (b, b.currentBatchSize) es).2 := by
  obtain ⟨h1, h2, h3, h4, h5, h6, h7⟩ := inv_runTraceG (inv_new h) es
  cases hcl : (runTraceG (b, b.currentBatchSize) es).1.closed with
  | true =>
    rw [addStep_closed _ item fb herr hcl] at hout
    exact absurd hout (by simp)
  | false =>
    by_cases hc : (runTraceG (b, b.currentBatchSize) es).1.currentBatchSize
        ≤ ((runTraceG (b, b.currentBatchSize) es).1.batch.length : ℤ) + 1
    · rw [addStep_detach _ item fb herr hcl hc] at hout
      have hbl : bl = (runTraceG (b, b.currentBatchSize) es).1.batch ++ [item] := by
        have := hout
        simp only [AddOutcome.flushed.injEq] at this
        exact this.1.symm
      subst hbl
      simp only [List.length_append, List.length_singleton]
      push_cast
      omega
    · rw [addStep_keep _ item fb herr hcl hc] at hout
      exact absurd hout (by simp)

/-- Witness for `size_trigger_bounded`: the detach at the end of `trace1`
hands 3 items, and the ghost bound (max size since last empty) is ≥ 3. -/
theorem size_trigger_bounded_witness :
    ((([4, 5, 6] : List Item).length : ℤ)
      ≤ (runTraceG (b1, b1.currentBatchSize) trace1).2) :=
  size_trigger_bounded new_cfg1 trace1 6 none false [4, 5, 6] false (by
    rw [runTraceG_fst, trace1_eval, addStep_detach stAfter1 6 none false rfl (by decide)]
    rfl)

lemma loadScore_fb09 : LoadFeedback.loadScore fb09 = 27 / 50 := by
  norm_num [LoadFeedback.loadScore, fb09, min_def]

lemma loadScore_fb00 : LoadFeedback.loadScore fb00 = 0 := by
  norm_num [LoadFeedback.loadScore, fb00, min_def]

/-- Claim C2, counterexample: with the handler constantly returning
`cpu_load = 0.9` (all other fields zero) the score is 0.54, inside the
hysteresis band `[0.25, 0.55]`, so the controller never moves: from the
spec's own adaptation scenario (`initial = 20`, `min = 5`, `f = 0.2`, where
the claimed bound is `⌈log_{1/(1−0.2)}(20/5)⌉ = 7` ticks) the size is still
20 ≠ 5 after 7 ticks. -/
theorem controller_direction_counterexample :
    (adjustIter 7 st09).currentBatchSize = 20 ∧ st09.cfg.minBatchSize = 5 ∧
      ((20 : ℤ) ≠ 5) := by
  have havg : ringAverage st09.recentFeedback = 27 / 50 := by
    rw [show st09.recentFeedback = [fb09] from rfl,
      @ringAverage_const [fb09] fb09 (List.cons_ne_nil _ _) (by simp), loadScore_fb09]
  have hstep : adjustStep st09 = st09 :=
    adjustStep_inband (by rw [havg]; norm_num) (by rw [havg]; norm_num)
      (by decide) (by decide)
  have hconst : ∀ k, adjustIter k st09 = st09 := by
    intro k
    induction k with
    | zero => rfl
    | succ k ih => rw [adjustIter_succ, ih, hstep]
  exact ⟨by rw [hconst 7]; rfl, rfl, by decide⟩

/-- Claim C2, amended: with constant `cpu_load = 0.9` feedback the average is
0.54 — inside the hysteresis band — so `current_size` never changes (it is
trivially non-increasing but does not reach `min_size` unless it started
there).  With constant `cpu_load = 0.0` the sequence is non-decreasing and
reaches `max_size` within `max_size − initial` ticks (each tick gains at
least 1 until the clamp), and stays there. -/
theorem controller_direction_amended (st : BState)
    (hne : st.recentFeedback ≠ [])
    (hmin : st.cfg.minBatchSize ≤ st.currentBatchSize)
    (hmax : st.currentBatchSize ≤ st.cfg.maxBatchSize) :
    ((∀ x ∈ st.recentFeedback, x = fb09) → ∀ k, adjustIter k st = st) ∧
    ((∀ x ∈ st.recentFeedback, x = fb00) →
      (∀ k, (adjustIter k st).currentBatchSize
        ≤ (adjustIter (k + 1) st).currentBatchSize) ∧
      (∀ k : ℕ, st.cfg.maxBatchSize - st.currentBatchSize ≤ (k : ℤ) →
        (adjustIter k st).currentBatchSize = st.cfg.maxBatchSize)) := by
  constructor
  · intro hall
    have havg : ringAverage st.recentFeedback = 27 / 50 := by
      rw [ringAverage_const hne hall, loadScore_fb09]
    have hstep : adjustStep st = st :=
      adjustStep_inband (by rw [havg]; norm_num) (by rw [havg]; norm_num) hmin hmax
    intro k
    induction k with
    | zero => rfl
    | succ k ih => rw [adjustIter_succ, ih, hstep]
  · intro hall
    have havg : ringAverage st.recentFeedback < 0.25 := by
      rw [ringAverage_const hne hall, loadScore_fb00]
      norm_num
    have hiter := adjustIter_up havg hne hmin hmax
    constructor
    · intro k
      obtain ⟨ir, ic, imin, imax, -, -⟩ := hiter k
      have hs := @adjustStep_up (adjustIter k st)
        (by rw [ir]; exact havg) (by rw [ir]; exact hne)
        (by rw [ic]; exact imin) (by rw [ic]; exact imax)
      rw [adjustIter_succ]
      exact hs.1
    · intro k hk
      obtain ⟨-, -, -, imax, -, igain⟩ := hiter k
      rcases igain with hg | hg
      · omega
      · exact hg

/-- Witness for `controller_direction_amended`: the spec's adaptation
configuration with a ring of constant `cpu = 0.9` feedback is frozen at 20
after 7 ticks; with constant all-zero feedback it reaches `max = 50` within
30 ticks. -/
theorem controller_direction_amended_witness :
    adjustIter 7 st09 = st09 ∧
      (adjustIter 30 st00).currentBatchSize = st00.cfg.maxBatchSize :=
  ⟨(controller_direction_amended st09 (by simp [st09]) (by decide) (by decide)).1
      (by simp [st09]) 7,
   ((controller_direction_amended st00 (by simp [st00]) (by decide) (by decide)).2
      (by simp [st00])).2 30 (by decide)⟩
